import Mathlib

/-!
Verification of the ICP-TIME event canister
(src/src/icp_rust_boilerplate_backend/src/lib.rs).

The canister keeps a stable BTree map from u64 ids to Event records and a
stable u64 id counter. We embed that state as a Lean structure: the map as
an association list (key, Event), the counter as a Nat reduced mod 2^64
where the source increments it. The caller identity (caller().to_string())
and the current time (time()) are environment inputs, so every operation
takes them as explicit arguments. A Rust panic (the .unwrap() calls in
update_event and delete_event on an absent id) is modeled as the `none`
result of an Option-returning operation.
-/

namespace ICPEvent

/-- The persisted Event record, field for field from the Rust struct
(String owner and attendees, u64 timestamps as Nat). -/
structure Event where
  id : Nat
  event_description : String
  owner : String
  event_title : String
  event_location : String
  event_card_imgurl : String
  attendees : List String
  created_at : Nat
  updated_at : Option Nat
  deriving Repr, DecidableEq

/-- The transient payload for create/update: the four mutable string
fields only, from the Rust EventPayload struct. -/
structure EventPayload where
  event_description : String
  event_title : String
  event_location : String
  event_card_imgurl : String
  deriving Repr, DecidableEq

/-- The Error enum of the source: NotFound with a message, NotAuthorized
with a message and the caller principal (modeled as its string form). -/
inductive Error where
  | NotFound (msg : String)
  | NotAuthorized (msg : String) (caller : String)
  deriving Repr, DecidableEq

/-- 2^64, the modulus of the u64 id counter. -/
def U64_MOD : Nat := 2 ^ 64

/-- Lookup by key in the association-list model of the stable map. -/
def storeGet : List (Nat × Event) → Nat → Option Event
  | [], _ => none
  | (k, v) :: rest, id => if k = id then some v else storeGet rest id

/-- Insert (upsert) by key in the association-list model: replaces the
first binding of the key, or appends a fresh binding. -/
def storeInsert : List (Nat × Event) → Nat → Event → List (Nat × Event)
  | [], id, e => [(id, e)]
  | (k, v) :: rest, id, e =>
      if k = id then (id, e) :: rest else (k, v) :: storeInsert rest id e

/-- Remove by key: returns the removed value (if any) and the remaining
bindings, like StableBTreeMap.remove. -/
def storeRemove : List (Nat × Event) → Nat → Option Event × List (Nat × Event)
  | [], _ => (none, [])
  | (k, v) :: rest, id =>
      if k = id then (some v, rest)
      else
        let r := storeRemove rest id
        (r.1, (k, v) :: r.2)

/-- Canister state: the ID_COUNTER cell and the STORAGE map. -/
structure State where
  idCounter : Nat
  storage : List (Nat × Event)
  deriving Repr, DecidableEq

/-- Fresh canister state: counter initialized to 0, empty storage. -/
def initState : State := { idCounter := 0, storage := [] }

/-- Helper do_insert from the source: inserts the event keyed by its own
id field. -/
def do_insert (storage : List (Nat × Event)) (event : Event) :
    List (Nat × Event) :=
  storeInsert storage event.id event

/-- Helper _get_event from the source: STORAGE.get(id). -/
def _get_event (st : State) (id : Nat) : Option Event :=
  storeGet st.storage id

/-- Helper _check_if_owner from the source: false when the recorded owner
string differs from the caller string, true otherwise. -/
def _check_if_owner (event : Event) (caller : String) : Bool :=
  if event.owner ≠ caller then false else true

/-- get_event: returns the record, or NotFound. A query: the state is
returned unchanged alongside the result. -/
def get_event (st : State) (id : Nat) : Except Error Event × State :=
  (match _get_event st id with
   | some message => Except.ok message
   | none =>
       Except.error (Error.NotFound
         ("Event with id=" ++ toString id ++ " not found")), st)

/-- create_event: reads the counter as the fresh id, stores counter+1
(u64 wrap-around), builds the Event from the payload with the caller as
owner, empty attendees, created_at = now, no updated_at, inserts it and
returns it. -/
def create_event (st : State) (caller : String) (now : Nat)
    (payload : EventPayload) : Option Event × State :=
  let id := st.idCounter
  let event : Event :=
    { id := id
      event_description := payload.event_description
      owner := caller
      event_title := payload.event_title
      event_location := payload.event_location
      event_card_imgurl := payload.event_card_imgurl
      attendees := []
      created_at := now
      updated_at := none }
  (some event,
    { idCounter := (st.idCounter + 1) % U64_MOD
      storage := do_insert st.storage event })

/-- update_event: first evaluates _check_if_owner on
_get_event(id).unwrap() - the unwrap panics when the id is absent, which
we model as the outer `none`. A non-owner gets NotAuthorized. Otherwise
the record is looked up again, the four payload fields and updated_at are
overwritten, and the record is re-inserted. -/
def update_event (st : State) (caller : String) (now : Nat) (id : Nat)
    (payload : EventPayload) : Option (Except Error Event × State) :=
  match _get_event st id with
  | none => none
  | some found =>
    if !(_check_if_owner found caller) then
      some (Except.error (Error.NotAuthorized
        ("You\x27re not the owner of the event with id=" ++ toString id)
        caller), st)
    else
      match storeGet st.storage id with
      | some event =>
        let event2 := { event with
          event_description := payload.event_description
          event_title := payload.event_title
          event_location := payload.event_location
          event_card_imgurl := payload.event_card_imgurl
          updated_at := some now }
        some (Except.ok event2,
          { st with storage := do_insert st.storage event2 })
      | none =>
        some (Except.error (Error.NotFound
          ("couldn\x27t update an event with id=" ++ toString id
            ++ ". event not found")), st)

/-- attend_event: looks the record up (NotFound when absent); when the
caller is already in attendees returns the "You are already an attendee"
error (carried, as in the source, by the NotFound variant); otherwise
pushes the caller onto attendees and re-inserts the record. -/
def attend_event (st : State) (caller : String) (id : Nat) :
    Except Error Event × State :=
  match storeGet st.storage id with
  | some event =>
    let attendee := caller
    let attendees := event.attendees
    if attendees.contains attendee then
      (Except.error (Error.NotFound "You are already an attendee"), st)
    else
      let event2 := { event with attendees := attendees ++ [attendee] }
      (Except.ok event2,
        { st with storage := do_insert st.storage event2 })
  | none =>
    (Except.error (Error.NotFound
      ("Couldn\x27t update an event with id=" ++ toString id
        ++ ". Event not found")), st)

/-- delete_event: like update_event it first unwraps _get_event(id)
(panic, modeled as `none`, when absent), returns NotAuthorized for a
non-owner, then removes the record and returns it. -/
def delete_event (st : State) (caller : String) (id : Nat) :
    Option (Except Error Event × State) :=
  match _get_event st id with
  | none => none
  | some found =>
    if !(_check_if_owner found caller) then
      some (Except.error (Error.NotAuthorized
        ("You\x27re not the owner of the event with id=" ++ toString id)
        caller), st)
    else
      match storeRemove st.storage id with
      | (some event, storage2) =>
          some (Except.ok event, { st with storage := storage2 })
      | (none, _) =>
          some (Except.error (Error.NotFound
            ("couldn\x27t delete an event with id=" ++ toString id
              ++ ". To-do not found.")), st)

/-- One public operation of the canister, with its environment inputs
(caller identity, time) attached. -/
inductive Op where
  | createOp (caller : String) (now : Nat) (payload : EventPayload)
  | updateOp (caller : String) (now : Nat) (id : Nat) (payload : EventPayload)
  | attendOp (caller : String) (id : Nat)
  | deleteOp (caller : String) (id : Nat)
  | getOp (id : Nat)
  deriving Repr, DecidableEq

/-- State transition of one operation; `none` when the operation panics
(the unwrap in update_event / delete_event on an absent id). -/
def execOp (st : State) : Op → Option State
  | .createOp c n p => some (create_event st c n p).2
  | .updateOp c n i p => (update_event st c n i p).map Prod.snd
  | .attendOp c i => some (attend_event st c i).2
  | .deleteOp c i => (delete_event st c i).map Prod.snd
  | .getOp i => some (get_event st i).2

/-- Run a sequence of operations; `none` as soon as one panics. -/
def runTrace (st : State) : List Op → Option State
  | [] => some st
  | op :: ops =>
    match execOp st op with
    | some st2 => runTrace st2 ops
    | none => none

/-- Number of create_event operations in a trace. -/
def countCreates : List Op → Nat
  | [] => 0
  | .createOp _ _ _ :: ops => countCreates ops + 1
  | _ :: ops => countCreates ops

/-- Creates contributed by a single operation. -/
def opCreates : Op → Nat
  | .createOp _ _ _ => 1
  | _ => 0

/-- State invariant maintained by every reachable state: storage keys are
pairwise distinct, every stored record carries its own key in its id
field, and every key is below the id counter. -/
def Inv (st : State) : Prop :=
  (st.storage.map Prod.fst).Nodup ∧
  ∀ k e, storeGet st.storage k = some e → e.id = k ∧ k < st.idCounter

theorem storeGet_storeInsert_self (s : List (Nat × Event)) (k : Nat) (e : Event) :
    storeGet (storeInsert s k e) k = some e := by
  induction s with
  | nil => simp [storeInsert, storeGet]
  | cons hd tl ih =>
    obtain ⟨k0, v0⟩ := hd
    by_cases h : k0 = k
    · simp [storeInsert, h, storeGet]
    · simp [storeInsert, h, storeGet, ih]

theorem storeGet_storeInsert_ne (s : List (Nat × Event)) (k k' : Nat) (e : Event)
    (h : k' ≠ k) : storeGet (storeInsert s k e) k' = storeGet s k' := by
  induction s with
  | nil => simp [storeInsert, storeGet, Ne.symm h]
  | cons hd tl ih =>
    obtain ⟨k0, v0⟩ := hd
    by_cases h0 : k0 = k
    · subst h0
      simp [storeInsert, storeGet, Ne.symm h]
    · by_cases h1 : k0 = k'
      · simp [storeInsert, h0, storeGet, h1, h]
      · simp [storeInsert, h0, storeGet, h1, ih]

theorem mem_keys_storeInsert (s : List (Nat × Event)) (k : Nat) (e : Event) (a : Nat)
    (h : a ∈ (storeInsert s k e).map Prod.fst) : a = k ∨ a ∈ s.map Prod.fst := by
  induction s with
  | nil => simpa [storeInsert] using h
  | cons hd tl ih =>
    obtain ⟨k0, v0⟩ := hd
    by_cases h0 : k0 = k
    · subst h0
      simpa [storeInsert] using h
    · simp only [storeInsert, if_neg h0, List.map_cons, List.mem_cons] at h
      rcases h with h | h
      · exact Or.inr (by simp [h])
      · rcases ih h with h | h
        · exact Or.inl h
        · exact Or.inr (by simp [h])

theorem keysNodup_storeInsert (s : List (Nat × Event)) (k : Nat) (e : Event)
    (h : (s.map Prod.fst).Nodup) : ((storeInsert s k e).map Prod.fst).Nodup := by
  induction s with
  | nil => simp [storeInsert]
  | cons hd tl ih =>
    obtain ⟨k0, v0⟩ := hd
    simp only [List.map_cons, List.nodup_cons] at h
    by_cases h0 : k0 = k
    · subst h0
      simpa [storeInsert] using h
    · simp only [storeInsert, if_neg h0, List.map_cons, List.nodup_cons]
      refine ⟨fun hmem => ?_, ih h.2⟩
      rcases mem_keys_storeInsert tl k e k0 hmem with h1 | h1
      · exact h0 h1
      · exact h.1 h1

theorem storeGet_eq_none_of_notMem (s : List (Nat × Event)) (k : Nat)
    (h : k ∉ s.map Prod.fst) : storeGet s k = none := by
  induction s with
  | nil => rfl
  | cons hd tl ih =>
    obtain ⟨k0, v0⟩ := hd
    simp only [List.map_cons, List.mem_cons, not_or] at h
    simp [storeGet, Ne.symm h.1, ih h.2]

theorem storeRemove_fst (s : List (Nat × Event)) (k : Nat) :
    (storeRemove s k).1 = storeGet s k := by
  induction s with
  | nil => rfl
  | cons hd tl ih =>
    obtain ⟨k0, v0⟩ := hd
    by_cases h : k0 = k
    · simp [storeRemove, h, storeGet]
    · simp [storeRemove, h, storeGet, ih]

theorem keys_storeRemove_sublist (s : List (Nat × Event)) (k : Nat) :
    List.Sublist ((storeRemove s k).2.map Prod.fst) (s.map Prod.fst) := by
  induction s with
  | nil => simp [storeRemove]
  | cons hd tl ih =>
    obtain ⟨k0, v0⟩ := hd
    by_cases h : k0 = k
    · simp only [storeRemove, if_pos h, List.map_cons]
      exact List.sublist_cons_self _ _
    · simp only [storeRemove, if_neg h, List.map_cons]
      exact List.Sublist.cons₂ _ ih

theorem storeGet_storeRemove (s : List (Nat × Event)) (k k' : Nat)
    (h : (s.map Prod.fst).Nodup) :
    storeGet (storeRemove s k).2 k' = if k' = k then none else storeGet s k' := by
  induction s with
  | nil => simp [storeRemove, storeGet]
  | cons hd tl ih =>
    obtain ⟨k0, v0⟩ := hd
    simp only [List.map_cons, List.nodup_cons] at h
    by_cases h0 : k0 = k
    · subst h0
      by_cases h1 : k' = k0
      · subst h1
        simp [storeRemove, storeGet_eq_none_of_notMem tl k' h.1]
      · simp [storeRemove, storeGet, h1, Ne.symm h1]
    · by_cases h1 : k0 = k'
      · have hne : ¬ (k' = k) := fun hh => h0 (h1.trans hh)
        simp [storeRemove, h0, storeGet, h1, hne]
      · simp [storeRemove, h0, storeGet, h1, ih h.2]

theorem inv_initState : Inv initState := by
  constructor
  · simp [initState]
  · intro k e h
    simp [initState, storeGet] at h

theorem execOp_inv (st st' : State) (op : Op) (h : execOp st op = some st')
    (hb : st.idCounter + opCreates op < U64_MOD) (hinv : Inv st) :
    st'.idCounter = st.idCounter + opCreates op ∧ Inv st' := by
  obtain ⟨hnd, hkey⟩ := hinv
  cases op with
  | createOp c n p =>
    simp only [execOp, Option.some.injEq] at h
    subst h
    simp only [opCreates] at hb ⊢
    simp only [create_event, do_insert]
    refine ⟨Nat.mod_eq_of_lt hb, keysNodup_storeInsert _ _ _ hnd, ?_⟩
    intro k e hk
    rw [Nat.mod_eq_of_lt hb]
    by_cases hkc : k = st.idCounter
    · subst hkc
      rw [storeGet_storeInsert_self] at hk
      cases hk
      exact ⟨rfl, Nat.lt_succ_self _⟩
    · rw [storeGet_storeInsert_ne _ _ _ _ hkc] at hk
      obtain ⟨h1, h2⟩ := hkey k e hk
      exact ⟨h1, Nat.lt_succ_of_lt h2⟩
  | updateOp c n i p =>
    simp only [execOp] at h
    rw [update_event] at h
    cases hf : _get_event st i with
    | none => rw [hf] at h; cases h
    | some found =>
      rw [hf] at h
      have hf2 : storeGet st.storage i = some found := hf
      cases hown : _check_if_owner found c with
      | false =>
        simp only [hown, Bool.not_false, if_true, Option.map_some] at h
        cases h
        exact ⟨by simp [opCreates], hnd, hkey⟩
      | true =>
        simp only [hown, Bool.not_true, if_false, hf2, Option.map_some] at h
        cases h
        obtain ⟨hid, hlt⟩ := hkey i found hf2
        simp only [opCreates, Nat.add_zero, do_insert]
        refine ⟨trivial, keysNodup_storeInsert _ _ _ hnd, ?_⟩
        intro k e hk
        by_cases hkc : k = found.id
        · subst hkc
          rw [storeGet_storeInsert_self] at hk
          cases hk
          exact ⟨rfl, hid ▸ hlt⟩
        · rw [storeGet_storeInsert_ne _ _ _ _ hkc] at hk
          exact hkey k e hk
  | attendOp c i =>
    simp only [execOp, Option.some.injEq] at h
    rw [attend_event] at h
    cases hf : storeGet st.storage i with
    | none =>
      rw [hf] at h
      cases h
      exact ⟨by simp [opCreates], hnd, hkey⟩
    | some event =>
      rw [hf] at h
      obtain ⟨hid, hlt⟩ := hkey i event hf
      cases hmem : event.attendees.contains c with
      | true =>
        simp only [hmem, if_true] at h
        cases h
        exact ⟨by simp [opCreates], hnd, hkey⟩
      | false =>
        simp only [hmem] at h
        rw [if_neg Bool.false_ne_true] at h
        cases h
        simp only [opCreates, Nat.add_zero, do_insert]
        refine ⟨trivial, keysNodup_storeInsert _ _ _ hnd, ?_⟩
        intro k e hk
        by_cases hkc : k = event.id
        · subst hkc
          rw [storeGet_storeInsert_self] at hk
          cases hk
          exact ⟨rfl, hid ▸ hlt⟩
        · rw [storeGet_storeInsert_ne _ _ _ _ hkc] at hk
          exact hkey k e hk
  | deleteOp c i =>
    simp only [execOp] at h
    rw [delete_event] at h
    cases hf : _get_event st i with
    | none => rw [hf] at h; cases h
    | some found =>
      rw [hf] at h
      cases hown : _check_if_owner found c with
      | false =>
        simp only [hown, Bool.not_false, if_true, Option.map_some] at h
        cases h
        exact ⟨by simp [opCreates], hnd, hkey⟩
      | true =>
        simp only [hown, Bool.not_true, if_false] at h
        have hr1 : (storeRemove st.storage i).1 = some found := by
          rw [storeRemove_fst]; exact hf
        rcases hrm : storeRemove st.storage i with ⟨r1, r2⟩
        rw [hrm] at h hr1
        simp only at hr1
        subst hr1
        simp only [Option.map_some] at h
        cases h
        simp only [opCreates, Nat.add_zero]
        refine ⟨trivial, ?_, ?_⟩
        · have hsub : List.Sublist (r2.map Prod.fst) (st.storage.map Prod.fst) := by
            have := keys_storeRemove_sublist st.storage i
            rw [hrm] at this
            exact this
          exact List.Nodup.sublist hsub hnd
        · intro k e hk
          have hget : storeGet r2 k = some e := hk
          have := storeGet_storeRemove st.storage i k hnd
          rw [hrm] at this
          simp only at this
          rw [this] at hget
          by_cases hkc : k = i
          · rw [if_pos hkc] at hget; cases hget
          · rw [if_neg hkc] at hget
            exact hkey k e hget
  | getOp i =>
    simp only [execOp, get_event, Option.some.injEq] at h
    cases h
    exact ⟨by simp [opCreates], hnd, hkey⟩

theorem runTrace_inv (ops : List Op) : ∀ (st st' : State),
    runTrace st ops = some st' →
    st.idCounter + countCreates ops < U64_MOD → Inv st →
    st'.idCounter = st.idCounter + countCreates ops ∧ Inv st' := by
  induction ops with
  | nil =>
    intro st st' h hb hinv
    simp only [runTrace, Option.some.injEq] at h
    subst h
    exact ⟨by simp [countCreates], hinv⟩
  | cons op ops ih =>
    intro st st' h hb hinv
    simp only [runTrace] at h
    cases hstep : execOp st op with
    | none => rw [hstep] at h; cases h
    | some st1 =>
      rw [hstep] at h
      have hcount : countCreates (op :: ops) = opCreates op + countCreates ops := by
        cases op <;> simp [opCreates, countCreates, Nat.add_comm]
      have hb1 : st.idCounter + opCreates op < U64_MOD := by
        rw [hcount] at hb; omega
      obtain ⟨hc, hinv1⟩ := execOp_inv st st1 op hstep hb1 hinv
      have hrest := ih st1 st' h (by rw [hc]; omega) hinv1
      exact ⟨by rw [hrest.1, hc, hcount]; omega, hrest.2⟩

/-- Fixture payload for concrete instantiations. -/
def payloadW : EventPayload :=
  { event_description := "d", event_title := "t"
    event_location := "l", event_card_imgurl := "u" }

/-- Fixture event: id 0, owned by alice, no attendees. -/
def eventW : Event :=
  { id := 0, event_description := "d", owner := "alice", event_title := "t"
    event_location := "l", event_card_imgurl := "u", attendees := []
    created_at := 5, updated_at := none }

/-- Fixture state holding eventW under key 0, next id 1. -/
def s1W : State := { idCounter := 1, storage := [(0, eventW)] }

/-- Fixture state after eventW was deleted: empty storage, next id still 1. -/
def s2W : State := { idCounter := 1, storage := [] }

/-- Fixture event whose attendees already contain bob. -/
def eventB : Event :=
  { id := 0, event_description := "d", owner := "alice", event_title := "t"
    event_location := "l", event_card_imgurl := "u", attendees := ["bob"]
    created_at := 5, updated_at := none }

/-- Fixture state holding eventB under key 0. -/
def stB : State := { idCounter := 1, storage := [(0, eventB)] }

/-- Claim C1: the claim says update_event and delete_event on an absent id
return NotFound; the code instead evaluates _get_event(id).unwrap() before
any existence check and panics (modeled as `none`): on the fresh state and
id 0 both operations trap rather than returning NotFound. -/
theorem update_delete_absent_id_trap :
    update_event initState "alice" 0 0 payloadW = none ∧
    delete_event initState "alice" 0 = none :=
  ⟨rfl, rfl⟩

/-- Claim C2: for a stored event and a caller different from its owner,
update_event and delete_event both return NotAuthorized with the caller
attached and leave the state untouched, and get_event still returns the
stored record. -/
theorem nonowner_update_delete_rejected (st : State) (caller : String)
    (now id : Nat) (p : EventPayload) (e : Event)
    (hget : _get_event st id = some e) (hown : e.owner ≠ caller) :
    update_event st caller now id p =
      some (Except.error (Error.NotAuthorized
        ("You\x27re not the owner of the event with id=" ++ toString id)
        caller), st) ∧
    delete_event st caller id =
      some (Except.error (Error.NotAuthorized
        ("You\x27re not the owner of the event with id=" ++ toString id)
        caller), st) ∧
    get_event st id = (Except.ok e, st) := by
  have hchk : _check_if_owner e caller = false := by
    simp [_check_if_owner, hown]
  refine ⟨?_, ?_, ?_⟩
  · simp [update_event, hget, hchk]
  · simp [delete_event, hget, hchk]
  · simp [get_event, hget]

/-- Witness for C2 at a concrete state: bob is rejected on the event owned
by alice. -/
theorem nonowner_update_delete_rejected_witness :
    update_event s1W "bob" 9 0 payloadW =
      some (Except.error (Error.NotAuthorized
        ("You\x27re not the owner of the event with id=" ++ toString 0)
        "bob"), s1W) ∧
    delete_event s1W "bob" 0 =
      some (Except.error (Error.NotAuthorized
        ("You\x27re not the owner of the event with id=" ++ toString 0)
        "bob"), s1W) ∧
    get_event s1W 0 = (Except.ok eventW, s1W) :=
  nonowner_update_delete_rejected s1W "bob" 9 0 payloadW eventW rfl
    (by decide)

/-- Claim C9: create_event never takes the `none` alternative of its
Option return type (storage and counter failures are outside the model):
it always returns `some` of the created event. -/
theorem create_event_returns_some (st : State) (caller : String) (now : Nat)
    (p : EventPayload) :
    ∃ e, (create_event st caller now p).1 = some e :=
  ⟨_, rfl⟩

/-- Claim C10: get_event is a pure query: the state it returns is the very
state it was given, so the id-to-event mapping is unchanged whether the
result is the event or NotFound. -/
theorem get_event_preserves_store (st : State) (id : Nat) :
    (get_event st id).2 = st ∧
    ∀ k, storeGet (get_event st id).2.storage k = storeGet st.storage k :=
  ⟨rfl, fun _ => rfl⟩

/-- Claim C3: attend_event by a caller not yet in the attendees of a
stored record appends that caller exactly once at the end (count 1), the
stored record now carries the new list, and a second attend_event by the
same caller returns the "already an attendee" error leaving the state
unchanged. The hypothesis e.id = id is the stored-key invariant that every
reachable state satisfies (Inv). -/
theorem attend_append_once_then_reject (st : State) (caller : String)
    (id : Nat) (e : Event)
    (hget : storeGet st.storage id = some e) (hid : e.id = id)
    (hmem : caller ∉ e.attendees) :
    ∃ st2, attend_event st caller id =
        (Except.ok { e with attendees := e.attendees ++ [caller] }, st2) ∧
      ({ e with attendees := e.attendees ++ [caller] } : Event).attendees.count
        caller = 1 ∧
      storeGet st2.storage id =
        some { e with attendees := e.attendees ++ [caller] } ∧
      attend_event st2 caller id =
        (Except.error (Error.NotFound "You are already an attendee"), st2) := by
  have hcon : e.attendees.contains caller = false := by simp [hmem]
  have hstep : attend_event st caller id =
      (Except.ok { e with attendees := e.attendees ++ [caller] },
        { st with storage :=
            do_insert st.storage { e with attendees := e.attendees ++ [caller] } }) := by
    simp [attend_event, hget, hcon, hmem]
  have hkey : ({ e with attendees := e.attendees ++ [caller] } : Event).id = id :=
    hid
  have hget2 : storeGet
      (do_insert st.storage { e with attendees := e.attendees ++ [caller] }) id =
      some { e with attendees := e.attendees ++ [caller] } := by
    rw [do_insert, hkey, storeGet_storeInsert_self]
  refine ⟨_, hstep, ?_, hget2, ?_⟩
  · simp [List.count_append, List.count_eq_zero.mpr hmem]
  · have hcon2 : (({ e with attendees := e.attendees ++ [caller] } : Event).attendees).contains
        caller = true := by simp
    simp [attend_event, hget2, hcon2]

/-- Witness for C3: bob attends the alice-owned event with no attendees,
is appended once, and a second attempt is rejected. -/
theorem attend_append_once_then_reject_witness :
    ∃ st2, attend_event s1W "bob" 0 =
        (Except.ok { eventW with attendees := eventW.attendees ++ ["bob"] }, st2) ∧
      ({ eventW with attendees := eventW.attendees ++ ["bob"] } : Event).attendees.count
        "bob" = 1 ∧
      storeGet st2.storage 0 =
        some { eventW with attendees := eventW.attendees ++ ["bob"] } ∧
      attend_event st2 "bob" 0 =
        (Except.error (Error.NotFound "You are already an attendee"), st2) :=
  attend_append_once_then_reject s1W "bob" 0 eventW rfl rfl (by decide)

/-- Claim C4: update_event by the owner returns and stores a record that
keeps id, owner, created_at and attendees, takes the four mutable fields
from the payload, and has updated_at = some now. The hypothesis
e.id = id is the stored-key invariant of reachable states (Inv). -/
theorem update_event_owner_frame (st : State) (caller : String)
    (now id : Nat) (p : EventPayload) (e : Event)
    (hget : storeGet st.storage id = some e) (hid : e.id = id)
    (hown : e.owner = caller) :
    ∃ e2 st2, update_event st caller now id p = some (Except.ok e2, st2) ∧
      e2.id = e.id ∧ e2.owner = e.owner ∧ e2.created_at = e.created_at ∧
      e2.attendees = e.attendees ∧
      e2.event_description = p.event_description ∧
      e2.event_title = p.event_title ∧
      e2.event_location = p.event_location ∧
      e2.event_card_imgurl = p.event_card_imgurl ∧
      e2.updated_at = some now ∧
      storeGet st2.storage id = some e2 := by
  have hchk : _check_if_owner e caller = true := by
    simp [_check_if_owner, hown]
  have hstep : update_event st caller now id p =
      some (Except.ok { e with
          event_description := p.event_description,
          event_title := p.event_title,
          event_location := p.event_location,
          event_card_imgurl := p.event_card_imgurl,
          updated_at := some now },
        { st with storage := do_insert st.storage { e with
            event_description := p.event_description,
            event_title := p.event_title,
            event_location := p.event_location,
            event_card_imgurl := p.event_card_imgurl,
            updated_at := some now } }) := by
    simp [update_event, _get_event, hget, hchk]
  refine ⟨_, _, hstep, rfl, rfl, rfl, rfl, rfl, rfl, rfl, rfl, rfl, ?_⟩
  simp [do_insert, hid, storeGet_storeInsert_self]

/-- Witness for C4: alice updates her event; everything checked at the
concrete fixture. -/
theorem update_event_owner_frame_witness :
    ∃ e2 st2, update_event s1W "alice" 9 0 payloadW =
        some (Except.ok e2, st2) ∧
      e2.id = eventW.id ∧ e2.owner = eventW.owner ∧
      e2.created_at = eventW.created_at ∧
      e2.attendees = eventW.attendees ∧
      e2.event_description = payloadW.event_description ∧
      e2.event_title = payloadW.event_title ∧
      e2.event_location = payloadW.event_location ∧
      e2.event_card_imgurl = payloadW.event_card_imgurl ∧
      e2.updated_at = some 9 ∧
      storeGet st2.storage 0 = some e2 :=
  update_event_owner_frame s1W "alice" 9 0 payloadW eventW rfl rfl rfl

/-- Claim C6: create_event followed by get_event on the fresh id returns
exactly the created record: owner is the creating caller, attendees empty,
created_at = now, updated_at absent. -/
theorem create_then_get_roundtrip (st : State) (caller : String) (now : Nat)
    (p : EventPayload) :
    ∃ e st2, create_event st caller now p = (some e, st2) ∧
      e.owner = caller ∧ e.attendees = [] ∧ e.created_at = now ∧
      e.updated_at = none ∧ e.id = st.idCounter ∧
      get_event st2 e.id = (Except.ok e, st2) := by
  refine ⟨_, _, rfl, rfl, rfl, rfl, rfl, rfl, ?_⟩
  simp [get_event, _get_event, create_event, do_insert, storeGet_storeInsert_self]

theorem storeGet_do_insert (s : List (Nat × Event)) (ev : Event) (k : Nat) :
    storeGet (do_insert s ev) k =
      if k = ev.id then some ev else storeGet s k := by
  rw [do_insert]
  by_cases h : k = ev.id
  · subst h
    simp [storeGet_storeInsert_self]
  · simp [h, storeGet_storeInsert_ne _ _ _ _ h]

/-- Claim C5: ids are handed out starting at 0 and grow by exactly 1 per
successful create_event, deletions notwithstanding: after any trace, the
counter equals the number of creates in the trace; and after a successful
delete of id i followed by any further trace, the next create_event
returns the current counter as id, which is never the deleted i. The
bound keeps the u64 counter from wrapping. -/
theorem create_event_id_allocation (ops1 ops2 : List Op) (c : String)
    (i : Nat) (e : Event) (s1 s1' s2 : State)
    (h1 : runTrace initState ops1 = some s1)
    (hd : delete_event s1 c i = some (Except.ok e, s1'))
    (h2 : runTrace s1' ops2 = some s2)
    (hb : countCreates ops1 + countCreates ops2 < U64_MOD) :
    s1.idCounter = countCreates ops1 ∧
    s2.idCounter = countCreates ops1 + countCreates ops2 ∧
    ∀ (c2 : String) (n2 : Nat) (p2 : EventPayload),
      ∃ e2, (create_event s2 c2 n2 p2).1 = some e2 ∧
        e2.id = s2.idCounter ∧ e2.id ≠ i := by
  obtain ⟨hc1, hinv1⟩ := runTrace_inv ops1 initState s1 h1
    (by simp only [initState]; omega) inv_initState
  simp only [initState, Nat.zero_add] at hc1
  have hlt : i < s1.idCounter := by
    rw [delete_event] at hd
    cases hf : _get_event s1 i with
    | none => rw [hf] at hd; cases hd
    | some found => exact (hinv1.2 i found hf).2
  have hexec : execOp s1 (Op.deleteOp c i) = some s1' := by
    simp [execOp, hd]
  have hdel0 : opCreates (Op.deleteOp c i) = 0 := rfl
  obtain ⟨hcd, hinvd⟩ := execOp_inv s1 s1' (Op.deleteOp c i) hexec
    (by rw [hdel0]; omega) hinv1
  rw [hdel0, Nat.add_zero] at hcd
  obtain ⟨hc2, _⟩ := runTrace_inv ops2 s1' s2 h2
    (by rw [hcd, hc1]; omega) hinvd
  refine ⟨hc1, by omega, ?_⟩
  intro c2 n2 p2
  refine ⟨_, rfl, rfl, ?_⟩
  show s2.idCounter ≠ i
  omega

/-- Witness for C5: create one event, delete it, and the next create hands
out id 1, not the deleted id 0. -/
theorem create_event_id_allocation_witness :
    s1W.idCounter = countCreates [Op.createOp "alice" 5 payloadW] ∧
    s2W.idCounter =
      countCreates [Op.createOp "alice" 5 payloadW] + countCreates [] ∧
    ∃ e2, (create_event s2W "carol" 7 payloadW).1 = some e2 ∧
      e2.id = s2W.idCounter ∧ e2.id ≠ 0 := by
  have h := create_event_id_allocation [Op.createOp "alice" 5 payloadW] []
    "alice" 0 eventW s1W s2W s2W rfl rfl rfl (by decide)
  exact ⟨h.1, h.2.1, h.2.2 "carol" 7 payloadW⟩

/-- Claim C7 counterexample: attend_event by a caller who is already an
attendee returns the NotFound variant - not an error kind distinct from
NotFound, as the claim asserts; the "already a member" condition is only
distinguishable by its message. -/
theorem attend_already_attendee_is_notfound :
    attend_event stB "bob" 0 =
      (Except.error (Error.NotFound "You are already an attendee"), stB) := by
  simp [attend_event, stB, eventB, storeGet]

/-- Claim C7 amended: attend_event returns errors only of the NotFound
kind: with the "Event not found" message exactly when the id is absent,
and with the "You are already an attendee" message exactly when the
caller is already an attendee; otherwise it succeeds with the caller
appended. -/
theorem attend_event_error_cases (st : State) (caller : String) (id : Nat) :
    (storeGet st.storage id = none →
      attend_event st caller id =
        (Except.error (Error.NotFound
          ("Couldn\x27t update an event with id=" ++ toString id
            ++ ". Event not found")), st)) ∧
    (∀ e, storeGet st.storage id = some e → caller ∈ e.attendees →
      attend_event st caller id =
        (Except.error (Error.NotFound "You are already an attendee"), st)) ∧
    (∀ e, storeGet st.storage id = some e → caller ∉ e.attendees →
      (attend_event st caller id).1 =
        Except.ok { e with attendees := e.attendees ++ [caller] }) := by
  refine ⟨fun h => ?_, fun e h hm => ?_, fun e h hm => ?_⟩
  · simp [attend_event, h]
  · simp [attend_event, h, hm]
  · simp [attend_event, h, hm]

/-- Witness for the amended C7: all three cases at concrete states. -/
theorem attend_event_error_cases_witness :
    attend_event initState "bob" 0 =
      (Except.error (Error.NotFound
        ("Couldn\x27t update an event with id=" ++ toString 0
          ++ ". Event not found")), initState) ∧
    attend_event stB "bob" 0 =
      (Except.error (Error.NotFound "You are already an attendee"), stB) ∧
    (attend_event stB "carol" 0).1 =
      Except.ok { eventB with attendees := eventB.attendees ++ ["carol"] } :=
  ⟨(attend_event_error_cases initState "bob" 0).1 rfl,
   (attend_event_error_cases stB "bob" 0).2.1 eventB rfl (by decide),
   (attend_event_error_cases stB "carol" 0).2.2 eventB rfl (by decide)⟩

/-- Claim C8: a successful attend_event leaves updated_at untouched: the
returned record keeps the prior updated_at, every record stored afterward
has a precursor with the same updated_at, and it is update_event that
sets updated_at (to the mutation time) on success. The hypothesis
e.id = id is the stored-key invariant of reachable states (Inv). -/
theorem attend_preserves_updated_at (st : State) (caller : String)
    (id : Nat) (e e2 : Event) (st2 : State)
    (hget : storeGet st.storage id = some e) (hid : e.id = id)
    (h : attend_event st caller id = (Except.ok e2, st2)) :
    e2.updated_at = e.updated_at ∧
    (∀ k e1, storeGet st2.storage k = some e1 →
      ∃ e0, storeGet st.storage k = some e0 ∧
        e1.updated_at = e0.updated_at) ∧
    (∀ (st3 : State) (c3 : String) (n3 i3 : Nat) (p3 : EventPayload)
        (e3 : Event) (st4 : State),
      update_event st3 c3 n3 i3 p3 = some (Except.ok e3, st4) →
      e3.updated_at = some n3) := by
  rw [attend_event, hget] at h
  cases hmem : e.attendees.contains caller with
  | true =>
    have hm : caller ∈ e.attendees := by simpa using hmem
    simp [hm] at h
  | false =>
    simp only [hmem] at h
    rw [if_neg Bool.false_ne_true] at h
    simp only [Prod.mk.injEq, Except.ok.injEq] at h
    obtain ⟨he2, hst2⟩ := h
    subst he2
    subst hst2
    refine ⟨rfl, ?_, ?_⟩
    · intro k e1 hk
      dsimp only at hk
      rw [storeGet_do_insert] at hk
      by_cases hkc : k = e.id
      · rw [if_pos hkc] at hk
        cases hk
        exact ⟨e, by rw [hkc, hid]; exact hget, rfl⟩
      · rw [if_neg hkc] at hk
        exact ⟨e1, hk, rfl⟩
    · intro st3 c3 n3 i3 p3 e3 st4 hu
      rw [update_event] at hu
      cases hf : _get_event st3 i3 with
      | none => rw [hf] at hu; cases hu
      | some found =>
        rw [hf] at hu
        cases hown : _check_if_owner found c3 with
        | false =>
          simp [hown] at hu
        | true =>
          simp only [hown, Bool.not_true] at hu
          rw [if_neg Bool.false_ne_true] at hu
          cases hg : storeGet st3.storage i3 with
          | none => rw [hg] at hu; simp at hu
          | some ev =>
            rw [hg] at hu
            simp only [Option.some.injEq, Prod.mk.injEq,
              Except.ok.injEq] at hu
            obtain ⟨hev, _⟩ := hu
            rw [← hev]

/-- Fixture: eventW after bob attended. -/
def eventWB : Event := { eventW with attendees := ["bob"] }

/-- Fixture: the state after bob attended eventW. -/
def stWB : State := { idCounter := 1, storage := [(0, eventWB)] }

/-- Fixture: eventW after the owner updated it at time 9 with payloadW. -/
def eventWU : Event := { eventW with updated_at := some 9 }

/-- Fixture: the state after that update. -/
def stWU : State := { idCounter := 1, storage := [(0, eventWU)] }

/-- Witness for C8 at the concrete fixtures. -/
theorem attend_preserves_updated_at_witness :
    eventWB.updated_at = eventW.updated_at ∧
    (∃ e0, storeGet s1W.storage 0 = some e0 ∧
      eventWB.updated_at = e0.updated_at) ∧
    eventWU.updated_at = some 9 := by
  have h := attend_preserves_updated_at s1W "bob" 0 eventW eventWB stWB
    rfl rfl (by rfl)
  exact ⟨h.1, h.2.1 0 eventWB rfl,
    h.2.2 s1W "alice" 9 0 payloadW eventWU stWU (by rfl)⟩

end ICPEvent
